import Mathlib

/-!
Verification of the admin-panel screens (Support chat and Products) of the
enhanced-hyundai-admin-panel repository.  The TypeScript handlers are shallowly
embedded as pure Lean functions: component state becomes explicit record
passing, toast notifications become an output list, and the nondeterministic
id/url generators of the browser are passed in as parameters.
-/

namespace AdminPanel

/-- A browser file as seen by the handlers: its name, MIME type string and
byte size (`File.name`, `File.type`, `File.size`). -/
structure JsFile where
  name : String
  type : String
  size : Nat
deriving DecidableEq, Repr

/-- The attachment classification union type of Support.tsx:
  either image, document, audio or other. -/
inductive FileType where
  | image
  | document
  | audio
  | other
deriving DecidableEq, Repr

/-- An attachment record as built by handleFileSelect in Support.tsx. -/
structure Attachment where
  id : String
  name : String
  type : FileType
  url : String
  size : String
deriving DecidableEq, Repr

/-- A toast notification: the feedback channel of the handlers. -/
inductive Toast where
  | error (msg : String)
  | success (msg : String)
deriving DecidableEq, Repr

/-- A chat message of Support.tsx (interface MessageWithAttachment); the
optional attachments field models the `attachments?` member. -/
structure MessageWithAttachment where
  id : String
  sender : String
  text : String
  timestamp : String
  attachments : Option (List Attachment)
deriving DecidableEq, Repr

/-- A support chat record from the admin context, as consumed by Support.tsx. -/
structure Chat where
  id : String
  customerName : String
  lastMessage : String
  lastMessageTime : String
  unreadCount : Nat
  status : String
  messages : List MessageWithAttachment
deriving DecidableEq, Repr

/-- A product record from the admin context, as consumed by the Products
screen. -/
structure Product where
  id : String
  name : String
  partNumber : String
  category : String
  model : String
  price : Nat
  stock : Nat
  status : String
  supplier : String
  images : List String
deriving DecidableEq, Repr

/-! ### JavaScript string primitives

The handlers use String.prototype.startsWith, String.prototype.includes,
String.prototype.toLowerCase and String.prototype.trim.  They are embedded
below on the character lists underlying Lean strings. -/

/-- Model of JavaScript `s.startsWith(p)`. -/
def jsStartsWith (s p : String) : Bool :=
  p.data.isPrefixOf s.data

/-- Helper for substring search: does `sub` occur inside the character list? -/
def listIncl (sub : List Char) : List Char → Bool
  | [] => sub.isPrefixOf ([] : List Char)
  | x :: xs => sub.isPrefixOf (x :: xs) || listIncl sub xs

/-- Model of JavaScript `s.includes(sub)`. -/
def strIncludes (s sub : String) : Bool :=
  listIncl sub.data s.data

/-- Model of JavaScript `s.trim()`: drop whitespace from both ends. -/
def jsTrim (s : String) : String :=
  String.mk
    (((s.data.dropWhile Char.isWhitespace).reverse.dropWhile
        Char.isWhitespace).reverse)

/-- Characterisation of list prefix tests as an existential equation. -/
theorem isPrefixOf_eq_true_iff (p s : List Char) :
    p.isPrefixOf s = true ↔ ∃ r, s = p ++ r := by
  induction p generalizing s with
  | nil => simp [List.isPrefixOf]
  | cons a p ih =>
    cases s with
    | nil => simp [List.isPrefixOf]
    | cons b s =>
      simp only [List.isPrefixOf, Bool.and_eq_true, beq_iff_eq, ih,
        List.cons_append, List.cons.injEq]
      constructor
      · rintro ⟨hab, r, hr⟩
        exact ⟨r, hab.symm, hr⟩
      · rintro ⟨r, hab, hr⟩
        exact ⟨hab.symm, r, hr⟩

/-- Characterisation of the substring search: `listIncl sub s` holds exactly
when `s` splits as some prefix, then `sub`, then some suffix. -/
theorem listIncl_eq_true_iff (sub : List Char) :
    ∀ s : List Char, listIncl sub s = true ↔ ∃ l r, s = l ++ sub ++ r := by
  intro s
  induction s with
  | nil =>
    simp only [listIncl, isPrefixOf_eq_true_iff]
    constructor
    · rintro ⟨r, hr⟩
      exact ⟨[], r, hr⟩
    · rintro ⟨l, r, hr⟩
      cases l with
      | nil => exact ⟨r, hr⟩
      | cons x xs => simp at hr
  | cons x xs ih =>
    simp only [listIncl, Bool.or_eq_true, isPrefixOf_eq_true_iff, ih]
    constructor
    · rintro (⟨r, hr⟩ | ⟨l, r, hr⟩)
      · exact ⟨[], r, by simpa using hr⟩
      · exact ⟨x :: l, r, by simp [hr]⟩
    · rintro ⟨l, r, hr⟩
      cases l with
      | nil => exact Or.inl ⟨r, by simpa using hr⟩
      | cons y ys =>
        simp only [List.cons_append, List.cons.injEq] at hr
        exact Or.inr ⟨ys, r, hr.2⟩

/-- The same characterisation, phrased on strings for jsStartsWith. -/
theorem jsStartsWith_eq_true_iff (s p : String) :
    jsStartsWith s p = true ↔ ∃ r, s.data = p.data ++ r :=
  isPrefixOf_eq_true_iff p.data s.data

/-- The same characterisation, phrased on strings for strIncludes. -/
theorem strIncludes_eq_true_iff (s sub : String) :
    strIncludes s sub = true ↔ ∃ l r, s.data = l ++ sub.data ++ r :=
  listIncl_eq_true_iff sub.data s.data

/-! ### Support.tsx: file classification and size formatting -/

/-- Embedding of getFileType (Support.tsx lines 67 to 72): classify a file by
its MIME type string. -/
def getFileType (file : JsFile) : FileType :=
  if jsStartsWith file.type "image/" then FileType.image
  else if jsStartsWith file.type "audio/" then FileType.audio
  else if strIncludes file.type "pdf" || strIncludes file.type "document"
      || strIncludes file.type "text" then FileType.document
  else FileType.other

/-- Model of JavaScript `(num / den).toFixed(1)` for natural `num` and a
positive power-of-two `den` (1024 or 1048576, where the double division is
exact): the value rounded to the nearest tenth, ties upward, printed with
exactly one digit after the decimal point. -/
def toFixed1 (num den : Nat) : String :=
  let tenths := (num * 10 + den / 2) / den
  toString (tenths / 10) ++ "." ++ toString (tenths % 10)

/-- Embedding of formatFileSize (Support.tsx lines 74 to 78). -/
def formatFileSize (bytes : Nat) : String :=
  if bytes < 1024 then toString bytes ++ " B"
  else if bytes < 1024 * 1024 then toFixed1 bytes 1024 ++ " KB"
  else toFixed1 bytes (1024 * 1024) ++ " MB"

/-! ### Support.tsx: attachment selection

handleFileSelect (lines 80 to 107) walks the selected files, rejects each file
larger than 10 * 1024 * 1024 bytes with an error toast, builds an attachment
record for every other file, appends the new attachments to the current list,
and finally shows a success toast with the number of attached files.  The
browser-generated identifier (Date.now plus a random suffix) and object URL of
the accepted file at overall position `i` in the selection are modelled by the
parameters `genId i` and `genUrl i`. -/

/-- The attachment record built for the file at position `i` of the
selection (Support.tsx lines 91 to 97). -/
def mkAttachment (genId genUrl : Nat → String) (i : Nat) (f : JsFile) :
    Attachment :=
  { id := genId i
    name := f.name
    type := getFileType f
    url := genUrl i
    size := formatFileSize f.size }

/-- The error toast for an oversized file (Support.tsx line 87). -/
def oversizeToast (f : JsFile) : Toast :=
  Toast.error (f.name ++ " is too large. Max file size is 10MB.")

/-- The forEach loop of handleFileSelect, at overall position `i`: returns the
new attachments in order together with the error toasts emitted on the way. -/
def fileSelectLoop (genId genUrl : Nat → String) :
    Nat → List JsFile → List Attachment × List Toast
  | _, [] => ([], [])
  | i, f :: fs =>
    if f.size > 10 * 1024 * 1024 then
      let rest := fileSelectLoop genId genUrl (i + 1) fs
      (rest.1, oversizeToast f :: rest.2)
    else
      let rest := fileSelectLoop genId genUrl (i + 1) fs
      (mkAttachment genId genUrl i f :: rest.1, rest.2)

/-- Embedding of handleFileSelect (Support.tsx lines 80 to 107): given the
current attachment list and the (non-null) selected files, produce the new
attachment list and the emitted toasts. -/
def handleFileSelect (genId genUrl : Nat → String) (prev : List Attachment)
    (files : List JsFile) : List Attachment × List Toast :=
  let result := fileSelectLoop genId genUrl 0 files
  (prev ++ result.1,
   result.2 ++ [Toast.success (toString result.1.length ++ " file(s) attached")])

/-! ### Support.tsx: sending a message -/

/-- The component state touched by handleSendMessage: the draft text, the
pending attachment list and the local message list. -/
structure SupportState where
  message : String
  attachments : List Attachment
  localMessages : List MessageWithAttachment
deriving DecidableEq, Repr

/-- Embedding of handleSendMessage (Support.tsx lines 113 to 128).  The
browser timestamp (new Date toISOString) and message id (Date.now) are the
parameters `now` and `msgId`; JavaScript trim is modelled by String.trim. -/
def handleSendMessage (now msgId : String) (s : SupportState) :
    SupportState × List Toast :=
  if jsTrim s.message = "" ∧ s.attachments.length = 0 then (s, [])
  else
    let newMessage : MessageWithAttachment :=
      { id := msgId
        sender := "admin"
        text := s.message
        timestamp := now
        attachments :=
          if s.attachments.length > 0 then some s.attachments else none }
    ({ message := ""
       attachments := []
       localMessages := s.localMessages ++ [newMessage] },
     [Toast.success "Message sent"])

/-! ### Support.tsx: the displayed message sequence -/

/-- The spread `\x7b ...m, attachments: undefined \x7d` applied to each
canonical chat message (Support.tsx line 144). -/
def stripAttachments (m : MessageWithAttachment) : MessageWithAttachment :=
  { m with attachments := none }

/-- Embedding of allMessages (Support.tsx lines 143 to 146): the canonical
messages of the selected chat with attachments stripped, followed by the local
messages filtered by the condition that the selected chat id strictly equals
the id of the first chat of the list (JavaScript === on possibly undefined
values is option equality). -/
def allMessages (chats : List Chat) (selectedChat : Option Chat)
    (localMessages : List MessageWithAttachment) : List MessageWithAttachment :=
  ((selectedChat.map Chat.messages).getD []).map stripAttachments ++
    localMessages.filter
      (fun _ => selectedChat.map Chat.id == (chats.head?).map Chat.id)

/-! ### Products screen: search filter -/

/-- Model of JavaScript toLowerCase. -/
def jsToLower (s : String) : String :=
  s.toLower

/-- Embedding of filteredProducts (Products screen, lines 58 to 67): a product
matches when the lowercased search term occurs in its lowercased name, part
number or model, and the category filter is the sentinel all or equals the
product category. -/
def filteredProducts (products : List Product)
    (searchTerm categoryFilter : String) : List Product :=
  products.filter fun product =>
    (strIncludes (jsToLower product.name) (jsToLower searchTerm) ||
      strIncludes (jsToLower product.partNumber) (jsToLower searchTerm) ||
      strIncludes (jsToLower product.model) (jsToLower searchTerm)) &&
    (categoryFilter == "all" || product.category == categoryFilter)

/-! ### Products screen: add-product dialog image URLs -/

/-- The initial image URL list of the dialog (line 48). -/
def initialImageUrls : List String := [""]

/-- Embedding of addImageUrl (lines 91 to 95): append an empty slot when
fewer than 10 slots exist. -/
def addImageUrl (urls : List String) : List String :=
  if urls.length < 10 then urls ++ [""] else urls

/-- Embedding of removeImageUrl (lines 97 to 101): when more than one slot
exists, keep the entries whose position differs from `index`. -/
def removeImageUrl (urls : List String) (index : Nat) : List String :=
  if urls.length > 1 then
    ((urls.enumFrom 0).filter (fun p => p.1 != index)).map Prod.snd
  else urls

/-- Embedding of updateImageUrl (lines 103 to 107) for the in-range indices
the dialog uses: write `value` at position `index`. -/
def updateImageUrl (urls : List String) (index : Nat) (value : String) :
    List String :=
  urls.set index value

/-- The Products screen state touched by handleAddProduct: the product
collection of the admin context and the dialog image URL list. -/
structure ProductsState where
  products : List Product
  imageUrls : List String
deriving DecidableEq, Repr

/-- Embedding of handleAddProduct (lines 109 to 117): when no image URL is
non-blank, emit an error toast and change nothing; otherwise emit a success
toast and reset the image URL list to a single empty entry.  No product record
is constructed or added in either branch. -/
def handleAddProduct (s : ProductsState) : ProductsState × List Toast :=
  let validUrls := s.imageUrls.filter (fun url => jsTrim url != "")
  if validUrls.length = 0 then
    (s, [Toast.error "Please add at least one product image"])
  else
    ({ s with imageUrls := [""] }, [Toast.success "Product added successfully"])

/-! ### Theorems for the claims -/

/-- C1: getFileType classifies a file by its MIME type: a type starting with
image/ is classified image; a type starting with audio/ is classified audio;
otherwise a type containing pdf, document or text is classified document; any
other type is classified other. -/
theorem C1_getFileType_classifies (f : JsFile) :
    ((∃ r, f.type.data = ("image/").data ++ r) →
      getFileType f = FileType.image) ∧
    ((∃ r, f.type.data = ("audio/").data ++ r) →
      getFileType f = FileType.audio) ∧
    ((¬ ∃ r, f.type.data = ("image/").data ++ r) →
      (¬ ∃ r, f.type.data = ("audio/").data ++ r) →
      ((∃ l r, f.type.data = l ++ ("pdf").data ++ r) ∨
        (∃ l r, f.type.data = l ++ ("document").data ++ r) ∨
        (∃ l r, f.type.data = l ++ ("text").data ++ r)) →
      getFileType f = FileType.document) ∧
    ((¬ ∃ r, f.type.data = ("image/").data ++ r) →
      (¬ ∃ r, f.type.data = ("audio/").data ++ r) →
      (¬ ∃ l r, f.type.data = l ++ ("pdf").data ++ r) →
      (¬ ∃ l r, f.type.data = l ++ ("document").data ++ r) →
      (¬ ∃ l r, f.type.data = l ++ ("text").data ++ r) →
      getFileType f = FileType.other) := by
  refine ⟨?_, ?_, ?_, ?_⟩
  · intro himg
    have himgB : jsStartsWith f.type "image/" = true :=
      (jsStartsWith_eq_true_iff _ _).mpr himg
    simp [getFileType, himgB]
  · intro haud
    have haudB : jsStartsWith f.type "audio/" = true :=
      (jsStartsWith_eq_true_iff _ _).mpr haud
    have himgB : jsStartsWith f.type "image/" = false := by
      obtain ⟨r, hr⟩ := haud
      have hdata : ("audio/" : String).data = ['a', 'u', 'd', 'i', 'o', '/'] :=
        rfl
      rw [hdata] at hr
      simp [jsStartsWith, hr, List.isPrefixOf]
    simp [getFileType, himgB, haudB]
  · intro himg haud hdoc
    have himgB : jsStartsWith f.type "image/" = false :=
      Bool.eq_false_iff.mpr
        (fun h => himg ((jsStartsWith_eq_true_iff _ _).mp h))
    have haudB : jsStartsWith f.type "audio/" = false :=
      Bool.eq_false_iff.mpr
        (fun h => haud ((jsStartsWith_eq_true_iff _ _).mp h))
    have hdocB : (strIncludes f.type "pdf" || strIncludes f.type "document"
        || strIncludes f.type "text") = true := by
      rcases hdoc with h | h | h
      · simp [(strIncludes_eq_true_iff _ _).mpr h]
      · simp [(strIncludes_eq_true_iff _ _).mpr h]
      · simp [(strIncludes_eq_true_iff _ _).mpr h]
    simp [getFileType, himgB, haudB, hdocB]
  · intro himg haud hpdf hdocu htext
    have himgB : jsStartsWith f.type "image/" = false :=
      Bool.eq_false_iff.mpr
        (fun h => himg ((jsStartsWith_eq_true_iff _ _).mp h))
    have haudB : jsStartsWith f.type "audio/" = false :=
      Bool.eq_false_iff.mpr
        (fun h => haud ((jsStartsWith_eq_true_iff _ _).mp h))
    have h1 : strIncludes f.type "pdf" = false :=
      Bool.eq_false_iff.mpr
        (fun h => hpdf ((strIncludes_eq_true_iff _ _).mp h))
    have h2 : strIncludes f.type "document" = false :=
      Bool.eq_false_iff.mpr
        (fun h => hdocu ((strIncludes_eq_true_iff _ _).mp h))
    have h3 : strIncludes f.type "text" = false :=
      Bool.eq_false_iff.mpr
        (fun h => htext ((strIncludes_eq_true_iff _ _).mp h))
    simp [getFileType, himgB, haudB, h1, h2, h3]

/-- Witness for C1: a plain-text MIME type is classified as a document. -/
theorem C1_witness :
    getFileType ⟨"notes.txt", "text/plain", 10⟩ = FileType.document := by
  refine (C1_getFileType_classifies ⟨"notes.txt", "text/plain", 10⟩).2.2.1
    ?_ ?_ ?_
  · rintro ⟨r, hr⟩
    exact absurd ((jsStartsWith_eq_true_iff _ _).mpr ⟨r, hr⟩) (by decide)
  · rintro ⟨r, hr⟩
    exact absurd ((jsStartsWith_eq_true_iff _ _).mpr ⟨r, hr⟩) (by decide)
  · exact Or.inr (Or.inr ((strIncludes_eq_true_iff _ _).mp (by decide)))

/-- C5: formatFileSize prints the byte count with suffix B below 1024 bytes,
the value divided by 1024 to one decimal with suffix KB below 1048576 bytes,
and the value divided by 1048576 to one decimal with suffix MB above. -/
theorem C5_formatFileSize_spec (b : Nat) :
    (b < 1024 → formatFileSize b = toString b ++ " B") ∧
    (1024 ≤ b → b < 1048576 → formatFileSize b = toFixed1 b 1024 ++ " KB") ∧
    (1048576 ≤ b → formatFileSize b = toFixed1 b 1048576 ++ " MB") := by
  refine ⟨fun h => ?_, fun h1 h2 => ?_, fun h => ?_⟩
  · unfold formatFileSize
    rw [if_pos h]
  · unfold formatFileSize
    rw [if_neg (by omega), if_pos (by omega : b < 1024 * 1024)]
  · unfold formatFileSize
    rw [if_neg (by omega), if_neg (by omega : ¬ b < 1024 * 1024)]

/-- Witness for C5: a two-kibibyte file is printed in the KB branch. -/
theorem C5_witness :
    formatFileSize 2048 = toFixed1 2048 1024 ++ " KB" :=
  (C5_formatFileSize_spec 2048).2.1 (by omega) (by omega)

/-- Characterisation of the handleFileSelect loop: the attachments are built,
in order, from exactly the files within the 10 MiB limit, and one error toast
is emitted, in order, for exactly the files over the limit. -/
theorem fileSelectLoop_spec (genId genUrl : Nat → String) :
    ∀ (files : List JsFile) (i : Nat),
      fileSelectLoop genId genUrl i files =
        (((files.enumFrom i).filter
            (fun p => decide (p.2.size ≤ 10 * 1024 * 1024))).map
          (fun p => mkAttachment genId genUrl p.1 p.2),
         (files.filter (fun f => decide (10 * 1024 * 1024 < f.size))).map
           oversizeToast) := by
  intro files
  induction files with
  | nil => intro i; rfl
  | cons f fs ih =>
    intro i
    by_cases h : f.size > 10 * 1024 * 1024
    · have hle : ¬ f.size ≤ 10 * 1024 * 1024 := by omega
      simp [fileSelectLoop, if_pos h, ih, h, hle]
    · have hle : f.size ≤ 10 * 1024 * 1024 := by omega
      simp [fileSelectLoop, if_neg h, ih, h, hle]

/-- C2: handleFileSelect appends to the attachment list exactly the selected
files of size at most 10 MiB, each as an attachment built at its position, it
emits one error toast per oversized file, and no oversized file contributes an
attachment. -/
theorem C2_handleFileSelect_size_limit (genId genUrl : Nat → String)
    (prev : List Attachment) (files : List JsFile) :
    (handleFileSelect genId genUrl prev files).1 =
      prev ++ ((files.enumFrom 0).filter
          (fun p => decide (p.2.size ≤ 10 * 1024 * 1024))).map
        (fun p => mkAttachment genId genUrl p.1 p.2) ∧
    (handleFileSelect genId genUrl prev files).2 =
      (files.filter (fun f => decide (10 * 1024 * 1024 < f.size))).map
          oversizeToast ++
        [Toast.success
          (toString (((files.enumFrom 0).filter
              (fun p => decide (p.2.size ≤ 10 * 1024 * 1024))).map
            (fun p => mkAttachment genId genUrl p.1 p.2)).length
            ++ " file(s) attached")] ∧
    ∀ f ∈ files, 10 * 1024 * 1024 < f.size →
      oversizeToast f ∈ (handleFileSelect genId genUrl prev files).2 := by
  refine ⟨?_, ?_, ?_⟩
  · simp [handleFileSelect, fileSelectLoop_spec]
  · simp [handleFileSelect, fileSelectLoop_spec]
  · intro f hf hbig
    simp only [handleFileSelect, fileSelectLoop_spec, List.mem_append,
      List.mem_map]
    exact Or.inl ⟨f, List.mem_filter.mpr ⟨hf, by simpa using hbig⟩, rfl⟩

/-- Witness for C2: an 11 MiB file gets an error toast. -/
theorem C2_witness :
    oversizeToast ⟨"big.bin", "application/zip", 11534336⟩ ∈
      (handleFileSelect (fun _ => "id") (fun _ => "url") []
        [⟨"big.bin", "application/zip", 11534336⟩]).2 :=
  (C2_handleFileSelect_size_limit (fun _ => "id") (fun _ => "url") []
      [⟨"big.bin", "application/zip", 11534336⟩]).2.2
    ⟨"big.bin", "application/zip", 11534336⟩ (by simp) (by decide)

/-- C10: a non-empty selection consisting only of oversized files leaves the
attachment list unchanged, emits one error toast per file, and still emits the
success toast reporting zero attached files. -/
theorem C10_all_oversized_selection (genId genUrl : Nat → String)
    (prev : List Attachment) (files : List JsFile) (hne : files ≠ [])
    (hall : ∀ f ∈ files, 10 * 1024 * 1024 < f.size) :
    (handleFileSelect genId genUrl prev files).1 = prev ∧
    (handleFileSelect genId genUrl prev files).2 =
      files.map oversizeToast ++ [Toast.success "0 file(s) attached"] := by
  have hacc : (files.enumFrom 0).filter
      (fun p => decide (p.2.size ≤ 10 * 1024 * 1024)) = [] := by
    rw [List.filter_eq_nil_iff]
    intro p hp
    have hmem : p.2 ∈ files := by
      have := List.enumFrom_map_snd 0 files
      have hx : p.2 ∈ (files.enumFrom 0).map Prod.snd :=
        List.mem_map.mpr ⟨p, hp, rfl⟩
      rwa [this] at hx
    have := hall p.2 hmem
    simp
    omega
  have herr : files.filter (fun f => decide (10 * 1024 * 1024 < f.size)) =
      files := by
    rw [List.filter_eq_self]
    intro a ha
    simpa using hall a ha
  constructor
  · simp [handleFileSelect, fileSelectLoop_spec, hacc]
  · simp [handleFileSelect, fileSelectLoop_spec, hacc, herr]
    rfl

/-- Witness for C10: the single oversized file case. -/
theorem C10_witness :
    (handleFileSelect (fun _ => "i") (fun _ => "u") []
        [⟨"huge.iso", "application/octet-stream", 10485761⟩]).1 =
      ([] : List Attachment) ∧
    (handleFileSelect (fun _ => "i") (fun _ => "u") []
        [⟨"huge.iso", "application/octet-stream", 10485761⟩]).2 =
      [oversizeToast ⟨"huge.iso", "application/octet-stream", 10485761⟩] ++
        [Toast.success "0 file(s) attached"] := by
  have h := C10_all_oversized_selection (fun _ => "i") (fun _ => "u") []
    [⟨"huge.iso", "application/octet-stream", 10485761⟩] (by simp)
    (by intro f hf; simp at hf; subst hf; decide)
  simpa using h

/-- C3 counterexample: with the non-blank draft text hi and an empty
attachment list, the appended message carries no attachments field (none),
not a field equal to the (empty) send-time attachment list. -/
theorem C3_counterexample :
    jsTrim "hi" ≠ "" ∧
    (handleSendMessage "2024-01-01T00:00:00.000Z" "1"
        ⟨"hi", [], []⟩).1.localMessages.map (fun m => m.attachments) =
      [none] ∧
    ¬ (handleSendMessage "2024-01-01T00:00:00.000Z" "1"
        ⟨"hi", [], []⟩).1.localMessages.map (fun m => m.attachments) =
      [some (⟨"hi", [], []⟩ : SupportState).attachments] := by
  refine ⟨by decide, ?_, ?_⟩ <;> decide

/-- C3 (amended): for every state whose draft text is non-blank after
trimming, handleSendMessage appends exactly one message with sender admin and
text equal to the draft, whose attachments field is the attachment list at
send time when that list is nonempty and is absent (none) when it is empty;
afterwards the draft text and the attachment list are cleared. -/
theorem C3_handleSendMessage_send (now msgId : String) (s : SupportState)
    (h : jsTrim s.message ≠ "") :
    handleSendMessage now msgId s =
      ({ message := ""
         attachments := []
         localMessages := s.localMessages ++
           [{ id := msgId
              sender := "admin"
              text := s.message
              timestamp := now
              attachments := if s.attachments.length > 0 then
                some s.attachments else none }] },
       [Toast.success "Message sent"]) := by
  unfold handleSendMessage
  rw [if_neg (fun hc => h hc.1)]

/-- Witness for C3: sending the draft hello from an attachment-free state. -/
theorem C3_witness :
    handleSendMessage "T" "1" ⟨"hello", [], []⟩ =
      ({ message := ""
         attachments := []
         localMessages := [{ id := "1"
                             sender := "admin"
                             text := "hello"
                             timestamp := "T"
                             attachments := none }] },
       [Toast.success "Message sent"]) := by
  have h := C3_handleSendMessage_send "T" "1" ⟨"hello", [], []⟩ (by decide)
  simpa using h

/-- C4: with a draft text that is blank after trimming and an empty attachment
list, handleSendMessage is a no-op: the state is unchanged and no message or
toast is produced. -/
theorem C4_handleSendMessage_noop (now msgId : String) (s : SupportState)
    (h1 : jsTrim s.message = "") (h2 : s.attachments = []) :
    handleSendMessage now msgId s = (s, []) := by
  unfold handleSendMessage
  rw [if_pos ⟨h1, by simp [h2]⟩]

/-- Witness for C4: a whitespace-only draft with no attachments. -/
theorem C4_witness :
    handleSendMessage "T" "1" ⟨" ", [], []⟩ = (⟨" ", [], []⟩, []) :=
  C4_handleSendMessage_noop "T" "1" ⟨" ", [], []⟩ (by decide) rfl

/-- C6: the filtered product list contains exactly the products whose
lowercased name, part number or model contains the lowercased search term as a
substring, and whose category passes the filter (sentinel all, or equality). -/
theorem C6_filteredProducts_spec (products : List Product)
    (searchTerm categoryFilter : String) (p : Product) :
    p ∈ filteredProducts products searchTerm categoryFilter ↔
      p ∈ products ∧
        ((∃ l r, (jsToLower p.name).data =
            l ++ (jsToLower searchTerm).data ++ r) ∨
         (∃ l r, (jsToLower p.partNumber).data =
            l ++ (jsToLower searchTerm).data ++ r) ∨
         (∃ l r, (jsToLower p.model).data =
            l ++ (jsToLower searchTerm).data ++ r)) ∧
        (categoryFilter = "all" ∨ p.category = categoryFilter) := by
  simp only [filteredProducts, List.mem_filter, Bool.and_eq_true,
    Bool.or_eq_true, beq_iff_eq, strIncludes_eq_true_iff, or_assoc]

/-- C7: handleAddProduct never touches the product collection; with only
blank image URLs it emits an error toast and keeps the URL list, and with at
least one non-blank URL it emits a success toast and resets the list to a
single empty entry. -/
theorem C7_handleAddProduct_frame (s : ProductsState) :
    (handleAddProduct s).1.products = s.products ∧
    ((∀ u ∈ s.imageUrls, jsTrim u = "") →
      (handleAddProduct s).1.imageUrls = s.imageUrls ∧
      (handleAddProduct s).2 =
        [Toast.error "Please add at least one product image"]) ∧
    ((∃ u ∈ s.imageUrls, jsTrim u ≠ "") →
      (handleAddProduct s).1.imageUrls = [""] ∧
      (handleAddProduct s).2 =
        [Toast.success "Product added successfully"]) := by
  refine ⟨?_, ?_, ?_⟩
  · by_cases h : (s.imageUrls.filter (fun url => jsTrim url != "")).length = 0 <;>
      simp [handleAddProduct, h]
  · intro hall
    have hfil : s.imageUrls.filter (fun url => jsTrim url != "") = [] := by
      rw [List.filter_eq_nil_iff]
      intro a ha
      simp [hall a ha]
    simp [handleAddProduct, hfil]
  · rintro ⟨u, hu, hne⟩
    have hmem : u ∈ s.imageUrls.filter (fun url => jsTrim url != "") :=
      List.mem_filter.mpr ⟨hu, by simpa using hne⟩
    have hlen : ¬ (s.imageUrls.filter (fun url => jsTrim url != "")).length = 0 := by
      intro hz
      rw [List.length_eq_zero] at hz
      rw [hz] at hmem
      exact absurd hmem (List.not_mem_nil u)
    simp [handleAddProduct, hlen]

/-- Witness for C7: one non-blank URL makes the dialog reset and succeed. -/
theorem C7_witness :
    (handleAddProduct ⟨[], ["x"]⟩).1.imageUrls = [""] ∧
    (handleAddProduct ⟨[], ["x"]⟩).2 =
      [Toast.success "Product added successfully"] :=
  (C7_handleAddProduct_frame ⟨[], ["x"]⟩).2.2 ⟨"x", by simp, by decide⟩

/-- A filter with a constant condition keeps everything or nothing. -/
theorem filter_const_eq {α : Type} (b : Bool) (l : List α) :
    l.filter (fun _ => b) = if b then l else [] := by
  cases b <;> simp

/-- C8: with a selected chat, the displayed sequence is the canonical messages
of that chat with attachments stripped, followed by the local messages exactly
when the selected chat id equals the id of the first chat of the list, and by
nothing otherwise. -/
theorem C8_allMessages_spec (chats : List Chat) (c : Chat)
    (localMessages : List MessageWithAttachment) :
    allMessages chats (some c) localMessages =
      c.messages.map stripAttachments ++
        (if (chats.head?).map Chat.id = some c.id then localMessages
         else []) := by
  by_cases h : (chats.head?).map Chat.id = some c.id
  · simp [allMessages, filter_const_eq, h]
  · have hb : (some c.id == (chats.head?).map Chat.id) = false := by
      rw [beq_eq_false_iff_ne]
      exact fun he => h he.symm
    simp [allMessages, filter_const_eq, hb, h]

/-- Positions strictly above the removed index are all kept by the
removeImageUrl filter. -/
theorem enumFrom_filter_ne_high (i : Nat) :
    ∀ (l : List String) (n : Nat), i < n →
      (l.enumFrom n).filter (fun p => p.1 != i) = l.enumFrom n := by
  intro l
  induction l with
  | nil => intro n h; rfl
  | cons a l ih =>
    intro n h
    have hne : (n != i) = true := by
      simp only [bne_iff_ne, ne_eq]
      omega
    simp [List.enumFrom_cons, List.filter_cons, hne, ih (n + 1) (by omega)]

/-- The index filter of removeImageUrl deletes exactly the entry at the given
position: on the tail enumerated from `n`, it is eraseIdx at `i - n`. -/
theorem enumFrom_filter_ne_eq_eraseIdx (i : Nat) :
    ∀ (l : List String) (n : Nat), n ≤ i →
      ((l.enumFrom n).filter (fun p => p.1 != i)).map Prod.snd =
        l.eraseIdx (i - n) := by
  intro l
  induction l with
  | nil => intro n h; simp
  | cons a l ih =>
    intro n h
    by_cases hn : n = i
    · subst hn
      have hkeep := enumFrom_filter_ne_high n l (n + 1) (by omega)
      simp [List.enumFrom_cons, List.filter_cons, hkeep,
        List.enumFrom_map_snd]
    · have hne : (n != i) = true := by
        simp only [bne_iff_ne, ne_eq]
        omega
      have hsub : i - n = (i - (n + 1)) + 1 := by omega
      simp only [List.enumFrom_cons, List.filter_cons, hne, if_pos,
        List.map_cons, hsub, List.eraseIdx_cons_succ, ih (n + 1) (by omega)]

/-- removeImageUrl is the eraseIdx operation guarded by the length check. -/
theorem removeImageUrl_eq_eraseIdx (urls : List String) (i : Nat) :
    removeImageUrl urls i =
      if urls.length > 1 then urls.eraseIdx i else urls := by
  unfold removeImageUrl
  rw [enumFrom_filter_ne_eq_eraseIdx i urls 0 (Nat.zero_le i), Nat.sub_zero]

/-- C9: starting from the single-entry initial list, every dialog operation
keeps the image URL list length between 1 and 10; addImageUrl is a no-op at
length 10 and removeImageUrl is a no-op at length 1 (updateImageUrl is used by
the dialog only at positions of the rendered list, hence in range). -/
theorem C9_imageUrls_invariant :
    (1 ≤ initialImageUrls.length ∧ initialImageUrls.length ≤ 10) ∧
    ∀ (urls : List String) (i : Nat) (v : String) (ps : List Product),
      1 ≤ urls.length → urls.length ≤ 10 →
      (1 ≤ (addImageUrl urls).length ∧ (addImageUrl urls).length ≤ 10) ∧
      (1 ≤ (removeImageUrl urls i).length ∧
        (removeImageUrl urls i).length ≤ 10) ∧
      (i < urls.length →
        1 ≤ (updateImageUrl urls i v).length ∧
        (updateImageUrl urls i v).length ≤ 10) ∧
      (1 ≤ (handleAddProduct ⟨ps, urls⟩).1.imageUrls.length ∧
        (handleAddProduct ⟨ps, urls⟩).1.imageUrls.length ≤ 10) ∧
      (urls.length = 10 → addImageUrl urls = urls) ∧
      (urls.length = 1 → removeImageUrl urls i = urls) := by
  refine ⟨by simp [initialImageUrls], ?_⟩
  intro urls i v ps h1 h10
  refine ⟨?_, ?_, ?_, ?_, ?_, ?_⟩
  · by_cases h : urls.length < 10 <;> simp [addImageUrl, h] <;> omega
  · rw [removeImageUrl_eq_eraseIdx]
    by_cases h : urls.length > 1
    · rw [if_pos h, List.length_eraseIdx]
      split <;> omega
    · rw [if_neg h]
      omega
  · intro hi
    simp only [updateImageUrl, List.length_set]
    omega
  · by_cases h : (urls.filter (fun url => jsTrim url != "")).length = 0 <;>
      simp [handleAddProduct, h] <;> omega
  · intro h
    simp [addImageUrl, h]
  · intro h
    simp [removeImageUrl, h]

/-- Witness for C9: from the initial single-entry list, adding a slot keeps
the bounds. -/
theorem C9_witness :
    1 ≤ (addImageUrl [""]).length ∧ (addImageUrl [""]).length ≤ 10 :=
  (C9_imageUrls_invariant.2 [""] 0 "x" [] (by simp) (by simp)).1

end AdminPanel
